import Mathlib

/-
Verification of the stream-to-stream message transfer pipeline
(`handleCopy` / `handleAbort` in `src/app/(dashboard)/stream-copy/page.tsx`).

The page's copy handler is a single sequential async function.  We embed it
shallowly: the external GraphQL collaborator is abstracted by a `CopyEnv`
giving the fetch outcome, the outcome of the i-th publish call, and the
iteration index at which the abort flag is first observed set (the flag is
only ever set, never cleared, during a run, so a single threshold captures
every possible schedule of `handleAbort` relative to the loop's checks).
React state updates between two `await` points batch into one observable
snapshot, so the trace records one state per await boundary.
-/

namespace StreamCopy

inductive LogType where
  | info
  | success
  | error
deriving DecidableEq, Repr

structure LogEntry where
  id : Nat
  type : LogType
  message : String
deriving DecidableEq, Repr

structure Progress where
  total : Nat
  copied : Nat
  errors : Nat
deriving DecidableEq, Repr

/-- `StreamMessage` from the page: sequence, subject, data, published. -/
structure Msg where
  sequence : Nat
  subject : String
  data : String
  published : String
deriving DecidableEq, Repr

/-- The component state touched by `handleCopy`: `copying`, `done`, `error`,
`logs`, `progress`, the `abortRef` cell and the `logIdRef` counter. -/
structure RunState where
  copying : Bool
  done : Bool
  error : Option String
  logs : List LogEntry
  progress : Progress
  abortFlag : Bool
  nextLogId : Nat
deriving DecidableEq, Repr

/-- The form inputs consumed by `handleCopy`. -/
structure CopyConfig where
  sourceStream : String
  targetStream : String
  subjectFilter : String
  maxMessages : String
deriving DecidableEq, Repr

/-- External collaborator behaviour for one run: the fetch outcome, the
outcome of the i-th publish call (`none` = success, `some cause` = the
thrown error's message), and the loop-check index from which the abort
flag reads true (`none` = never). -/
structure CopyEnv where
  fetch : Except String (List Msg)
  pubResult : Nat → Option String
  cancelAt : Option Nat

/-- `addLog` from the page: append an entry with the next id. -/
def addLog (st : RunState) (t : LogType) (m : String) : RunState :=
  { st with
    logs := st.logs ++ [⟨st.nextLogId, t, m⟩]
    nextLogId := st.nextLogId + 1 }

/-- Leading decimal digits of a character list, `none` when there are none
(JS `parseInt` returns NaN then). -/
def leadingNat (cs : List Char) : Option Nat :=
  let ds := cs.takeWhile Char.isDigit
  if ds.isEmpty then none
  else some (ds.foldl (fun a c => a * 10 + (c.toNat - 48)) 0)

/-- JS `parseInt(s)` (radix 10): skip whitespace, optional sign, leading
digits; `none` models NaN. -/
def parseIntJS (s : String) : Option Int :=
  let cs := s.toList.dropWhile (fun c => c = ' ' || c = '\t' || c = '\n' || c = '\r')
  match cs with
  | '-' :: rest => (leadingNat rest).map (fun n => -(n : Int))
  | '+' :: rest => (leadingNat rest).map (fun n => (n : Int))
  | rest => (leadingNat rest).map (fun n => (n : Int))

/-- `const limit = parseInt(maxMessages) || 100`: NaN and 0 (and -0) are
falsy and fall back to 100; any other parsed value is kept as is. -/
def limitOf (s : String) : Int :=
  match parseIntJS s with
  | none => 100
  | some n => if n = 0 then 100 else n

/-- `${n !== 1 ? "s" : ""}` pluralisation suffix. -/
def plural (n : Nat) : String :=
  if n ≠ 1 then "s" else ""

def fetchingMsg (limit : Int) (source filter : String) : String :=
  "Fetching up to " ++ toString limit ++ " messages from \"" ++ source ++ "\"" ++
    (if filter ≠ "" then " with filter \"" ++ filter ++ "\"" else "") ++ "..."

def foundMsg (n : Nat) : String :=
  "Found " ++ toString n ++ " message" ++ plural n

def progressLogMsg (copied n : Nat) : String :=
  "Copied " ++ toString copied ++ "/" ++ toString n ++ " messages..."

def copyFailMsg (seq : Nat) (subject cause : String) : String :=
  "Failed to copy seq #" ++ toString seq ++ " (" ++ subject ++ "): " ++ cause

def doneMsg (copied errors : Nat) : String :=
  "Done! Copied " ++ toString copied ++ " message" ++ plural copied ++
    (if errors > 0 then ", " ++ toString errors ++ " error" ++ plural errors else "") ++ "."

def abortMsg : String := "Copy aborted by user."

def noMsgMsg : String := "No messages found matching the filter."

/-- Value of the abort flag at the check opening loop iteration `i`: the
flag was reset to `false` before the loop and `handleAbort` only ever sets
it, so it reads true exactly from some threshold iteration on. -/
def abortObserved (cancelAt : Option Nat) (i : Nat) : Bool :=
  match cancelAt with
  | none => false
  | some k => decide (k ≤ i)

/-- Outcome of one loop iteration: the state after it, the publish call it
issued (subject, data) if any, and whether it hit the `break`. -/
structure IterResult where
  state : RunState
  pub : Option (String × String)
  broke : Bool

/-- One iteration of the `for (const msg of messages)` loop.  The local
`copied`/`errors` counters move in lockstep with the `progress` fields
(they are only ever updated together), so `progress` stands for both. -/
def loopIter (env : CopyEnv) (nMsgs : Nat) (flag0 : Bool) (idx : Nat)
    (msg : Msg) (st : RunState) : IterResult :=
  if flag0 || abortObserved env.cancelAt idx then
    ⟨addLog st .info abortMsg, none, true⟩
  else
    match env.pubResult idx with
    | none =>
      let copied := st.progress.copied + 1
      let st1 := { st with progress := { st.progress with copied := copied } }
      let st2 :=
        if copied % 10 = 0 ∨ copied = nMsgs then
          addLog st1 .info (progressLogMsg copied nMsgs)
        else st1
      ⟨st2, some (msg.subject, msg.data), false⟩
    | some cause =>
      let errors := st.progress.errors + 1
      let st1 := { st with progress := { st.progress with errors := errors } }
      ⟨addLog st1 .error (copyFailMsg msg.sequence msg.subject cause),
        some (msg.subject, msg.data), false⟩

/-- Result of the publish loop: observable states (one per iteration), the
publish calls issued, whether the abort `break` fired, and the state the
loop leaves behind. -/
structure LoopResult where
  states : List RunState
  pubs : List (String × String)
  cancelled : Bool
  final : RunState

/-- The publish loop over the fetched messages, from iteration `idx`. -/
def runLoop (env : CopyEnv) (nMsgs : Nat) (flag0 : Bool) :
    List Msg → Nat → RunState → LoopResult
  | [], _, st => ⟨[], [], false, st⟩
  | m :: rest, idx, st =>
    let r := loopIter env nMsgs flag0 idx m st
    if r.broke then ⟨[r.state], [], true, r.state⟩
    else
      let t := runLoop env nMsgs flag0 rest (idx + 1) r.state
      ⟨r.state :: t.states, r.pub.toList ++ t.pubs, t.cancelled, t.final⟩

/-- The reset block at the top of `handleCopy`: `setCopying(true)`,
`setDone(false)`, `setError(null)`, `setLogs([])`, zero progress,
`abortRef.current = false`. -/
def resetState (st : RunState) : RunState :=
  { st with
    copying := true
    done := false
    error := none
    logs := []
    progress := ⟨0, 0, 0⟩
    abortFlag := false }

/-- State observable while the fetch is awaited: reset plus the
"Fetching up to ..." info entry. -/
def fetchLogState (cfg : CopyConfig) (st0 : RunState) : RunState :=
  addLog (resetState st0) .info
    (fetchingMsg (limitOf cfg.maxMessages) cfg.sourceStream cfg.subjectFilter)

/-- State at the first publish await: the "Found N message(s)" entry plus
`setProgress({total, 0, 0})`. -/
def preLoopState (cfg : CopyConfig) (st0 : RunState) (n : Nat) : RunState :=
  { addLog (fetchLogState cfg st0) .success (foundMsg n) with
    progress := ⟨n, 0, 0⟩ }

/-- Terminal state of the catch branch: `setError`, error log entry,
`setCopying(false)` from the finally block. -/
def errorFinish (st : RunState) (e : String) : RunState :=
  { addLog { st with error := some e } .error e with copying := false }

/-- Terminal state of the empty-fetch early return. -/
def emptyFinish (st : RunState) : RunState :=
  { addLog st .info noMsgMsg with done := true, copying := false }

/-- Terminal state after the loop: the "Done! ..." summary entry built from
the final counters, `setDone(true)`, `setCopying(false)`. -/
def finishState (st : RunState) : RunState :=
  { addLog st .success (doneMsg st.progress.copied st.progress.errors) with
    done := true
    copying := false }

/-- Whole-run outcome: the observable state snapshots in order, the publish
calls issued, and whether the loop broke on the abort flag. -/
structure RunResult where
  trace : List RunState
  pubs : List (String × String)
  cancelled : Bool

/-- The loop stage of a valid run over a non-empty fetched batch. -/
def loopOf (cfg : CopyConfig) (env : CopyEnv) (st0 : RunState)
    (msgs : List Msg) : LoopResult :=
  runLoop env msgs.length (resetState st0).abortFlag msgs 0
    (preLoopState cfg st0 msgs.length)

/-- Body of `handleCopy` after validation passed. -/
def runCopyBody (cfg : CopyConfig) (env : CopyEnv) (st0 : RunState) : RunResult :=
  let st1 := fetchLogState cfg st0
  match env.fetch with
  | .error e => ⟨[st1, errorFinish st1 e], [], false⟩
  | .ok msgs =>
    if msgs.isEmpty then ⟨[st1, emptyFinish st1], [], false⟩
    else
      let lr := loopOf cfg env st0 msgs
      ⟨[st1, preLoopState cfg st0 msgs.length] ++ lr.states ++ [finishState lr.final],
        lr.pubs, lr.cancelled⟩

/-- `handleCopy`: the two validation guards return early with only an error
message set; otherwise the run proceeds. -/
def runCopy (cfg : CopyConfig) (env : CopyEnv) (st0 : RunState) : RunResult :=
  if cfg.sourceStream = "" ∨ cfg.targetStream = "" then
    ⟨[{ st0 with error := some "Select both source and target streams" }], [], false⟩
  else if cfg.sourceStream = cfg.targetStream then
    ⟨[{ st0 with error := some "Source and target streams must be different" }], [], false⟩
  else
    runCopyBody cfg env st0

/-- `handleAbort`: sets the abort flag. -/
def handleAbort (st : RunState) : RunState :=
  { st with abortFlag := true }

/-- The last observable state of a run. -/
def finalState (cfg : CopyConfig) (env : CopyEnv) (st0 : RunState) : RunState :=
  (runCopy cfg env st0).trace.getLastD st0

/-- A request that passes both validation guards. -/
def validCfg (cfg : CopyConfig) : Prop :=
  cfg.sourceStream ≠ "" ∧ cfg.targetStream ≠ "" ∧
    cfg.sourceStream ≠ cfg.targetStream

instance (cfg : CopyConfig) : Decidable (validCfg cfg) := by
  unfold validCfg
  infer_instance

/-- The (subject, payload) pair a publish call carries for a message. -/
def pubPair (m : Msg) : String × String := (m.subject, m.data)

/-- Number of failing publishes among iterations `idx, ..., idx+len-1`. -/
def failCount (env : CopyEnv) : Nat → Nat → Nat
  | _, 0 => 0
  | idx, Nat.succ n =>
    (if (env.pubResult idx).isSome then 1 else 0) + failCount env (idx + 1) n

/-- Number of succeeding publishes among iterations `idx, ..., idx+len-1`. -/
def succCount (env : CopyEnv) : Nat → Nat → Nat
  | _, 0 => 0
  | idx, Nat.succ n =>
    (if (env.pubResult idx).isSome then 0 else 1) + succCount env (idx + 1) n

/-- Number of error-kind entries in a log. -/
def errCnt (logs : List LogEntry) : Nat :=
  logs.countP (fun e => decide (e.type = LogType.error))

/-- Progress counters never decrease from one snapshot to the next. -/
def monoR (a b : RunState) : Prop :=
  a.progress.copied ≤ b.progress.copied ∧ a.progress.errors ≤ b.progress.errors

/-- A fresh component state. -/
def cleanState : RunState := ⟨false, false, none, [], ⟨0, 0, 0⟩, false, 0⟩

def msgEx0 : Msg := ⟨10, "orders.a", "d0", "t0"⟩

def msgEx1 : Msg := ⟨11, "orders.b", "d1", "t1"⟩

def msgEx2 : Msg := ⟨12, "orders.c", "d2", "t2"⟩

/-- The spec's worked example batch: sequences 10, 11, 12. -/
def exMsgs : List Msg := [msgEx0, msgEx1, msgEx2]

/-- The spec's worked example request. -/
def cfgEx : CopyConfig := ⟨"A", "B", "orders.>", "3"⟩

def cfgDefault : CopyConfig := ⟨"A", "B", "", "100"⟩

/-- A request with a negative (parseable, non-positive) message limit. -/
def cfgNeg : CopyConfig := ⟨"A", "B", "", "-5"⟩

/-- Worked example environment: only the publish of sequence 11 (index 1)
fails. -/
def envEx : CopyEnv :=
  ⟨.ok exMsgs, fun i => if i = 1 then some "publish failed" else none, none⟩

/-- Environment where only the first publish fails. -/
def envFail0 : CopyEnv :=
  ⟨.ok exMsgs, fun i => if i = 0 then some "boom" else none, none⟩

/-- Environment where every publish fails. -/
def envAllFail : CopyEnv := ⟨.ok exMsgs, fun _ => some "boom", none⟩

/-- Environment whose fetch matches nothing. -/
def envNoMsgs : CopyEnv := ⟨.ok [], fun _ => none, none⟩

/-- Environment whose fetch call fails. -/
def envFetchFail : CopyEnv := ⟨.error "network down", fun _ => none, none⟩

/-- Environment where the abort flag is observed at the very first check. -/
def envCancel0 : CopyEnv := ⟨.ok exMsgs, fun _ => none, some 0⟩

/-- Environment where the abort flag is observed from the second check on. -/
def envCancel1 : CopyEnv := ⟨.ok exMsgs, fun _ => none, some 1⟩

theorem loopIter_total (env : CopyEnv) (n : Nat) (flag0 : Bool) (idx : Nat)
    (m : Msg) (st : RunState) :
    (loopIter env n flag0 idx m st).state.progress.total = st.progress.total := by
  unfold loopIter
  split
  · simp [addLog]
  · split
    · dsimp only
      split <;> simp [addLog]
    · simp [addLog]

theorem loopIter_mono (env : CopyEnv) (n : Nat) (flag0 : Bool) (idx : Nat)
    (m : Msg) (st : RunState) :
    monoR st (loopIter env n flag0 idx m st).state := by
  unfold loopIter monoR
  split
  · simp [addLog]
  · split
    · dsimp only
      split <;> simp [addLog]
    · simp [addLog]

theorem loopIter_sum (env : CopyEnv) (n : Nat) (flag0 : Bool) (idx : Nat)
    (m : Msg) (st : RunState) :
    (loopIter env n flag0 idx m st).state.progress.copied +
        (loopIter env n flag0 idx m st).state.progress.errors ≤
      st.progress.copied + st.progress.errors + 1 := by
  unfold loopIter
  split
  · simp [addLog]
  · split
    · dsimp only
      split <;> simp [addLog] <;> omega
    · simp [addLog]
      omega

theorem loopIter_error (env : CopyEnv) (n : Nat) (flag0 : Bool) (idx : Nat)
    (m : Msg) (st : RunState) :
    (loopIter env n flag0 idx m st).state.error = st.error := by
  unfold loopIter
  split
  · simp [addLog]
  · split
    · dsimp only
      split <;> simp [addLog]
    · simp [addLog]

theorem runLoop_total (env : CopyEnv) (n : Nat) (flag0 : Bool) (msgs : List Msg) :
    ∀ (idx : Nat) (st : RunState),
    (∀ t ∈ (runLoop env n flag0 msgs idx st).states,
        t.progress.total = st.progress.total) ∧
    (runLoop env n flag0 msgs idx st).final.progress.total = st.progress.total := by
  induction msgs with
  | nil => intro idx st; simp [runLoop]
  | cons m rest ih =>
    intro idx st
    have hit := loopIter_total env n flag0 idx m st
    cases hb : (loopIter env n flag0 idx m st).broke with
    | true =>
      simp [runLoop, hb, hit]
    | false =>
      have ihr := ih (idx + 1) (loopIter env n flag0 idx m st).state
      simp only [runLoop, hb, Bool.false_eq_true, if_false]
      constructor
      · intro t ht
        simp only [List.mem_cons] at ht
        rcases ht with rfl | ht
        · exact hit
        · exact (ihr.1 t ht).trans hit
      · exact ihr.2.trans hit

theorem runLoop_sum (env : CopyEnv) (n : Nat) (flag0 : Bool) (msgs : List Msg) :
    ∀ (idx : Nat) (st : RunState),
    st.progress.copied + st.progress.errors + msgs.length ≤ st.progress.total →
    (∀ t ∈ (runLoop env n flag0 msgs idx st).states,
        t.progress.copied + t.progress.errors ≤ t.progress.total) ∧
    (runLoop env n flag0 msgs idx st).final.progress.copied +
        (runLoop env n flag0 msgs idx st).final.progress.errors ≤
      (runLoop env n flag0 msgs idx st).final.progress.total := by
  induction msgs with
  | nil =>
    intro idx st h
    simp only [runLoop, List.not_mem_nil, false_implies, implies_true, true_and]
    simp only [List.length_nil, Nat.add_zero] at h
    exact h
  | cons m rest ih =>
    intro idx st h
    have hit := loopIter_total env n flag0 idx m st
    have hsum := loopIter_sum env n flag0 idx m st
    have hstep : (loopIter env n flag0 idx m st).state.progress.copied +
        (loopIter env n flag0 idx m st).state.progress.errors + rest.length ≤
        (loopIter env n flag0 idx m st).state.progress.total := by
      rw [hit]
      simp only [List.length_cons] at h
      omega
    have hone : (loopIter env n flag0 idx m st).state.progress.copied +
        (loopIter env n flag0 idx m st).state.progress.errors ≤
        (loopIter env n flag0 idx m st).state.progress.total := by
      omega
    cases hb : (loopIter env n flag0 idx m st).broke with
    | true =>
      simp only [runLoop, hb, if_true, List.mem_singleton]
      constructor
      · intro t ht; subst ht; exact hone
      · exact hone
    | false =>
      have ihr := ih (idx + 1) (loopIter env n flag0 idx m st).state hstep
      simp only [runLoop, hb, Bool.false_eq_true, if_false]
      constructor
      · intro t ht
        simp only [List.mem_cons] at ht
        rcases ht with rfl | ht
        · exact hone
        · exact ihr.1 t ht
      · exact ihr.2

theorem runLoop_chain (env : CopyEnv) (n : Nat) (flag0 : Bool) (msgs : List Msg) :
    ∀ (idx : Nat) (st : RunState) (x : RunState),
    monoR (runLoop env n flag0 msgs idx st).final x →
    List.Chain' monoR ((st :: (runLoop env n flag0 msgs idx st).states) ++ [x]) := by
  induction msgs with
  | nil =>
    intro idx st x hx
    simp only [runLoop] at hx ⊢
    exact List.chain'_cons.2 ⟨hx, List.chain'_singleton x⟩
  | cons m rest ih =>
    intro idx st x hx
    have hm := loopIter_mono env n flag0 idx m st
    cases hb : (loopIter env n flag0 idx m st).broke with
    | true =>
      simp only [runLoop, hb, if_true] at hx ⊢
      exact List.chain'_cons.2 ⟨hm, List.chain'_cons.2 ⟨hx, List.chain'_singleton x⟩⟩
    | false =>
      simp only [runLoop, hb, Bool.false_eq_true, if_false] at hx ⊢
      exact List.chain'_cons.2 ⟨hm, ih (idx + 1) (loopIter env n flag0 idx m st).state x hx⟩

theorem succCount_add_failCount (env : CopyEnv) (len : Nat) :
    ∀ idx, succCount env idx len + failCount env idx len = len := by
  induction len with
  | zero => intro idx; simp [succCount, failCount]
  | succ k ih =>
    intro idx
    have := ih (idx + 1)
    simp only [succCount, failCount]
    cases h : (env.pubResult idx).isSome <;> simp [h] <;> omega

theorem failCount_all (env : CopyEnv) (len : Nat) :
    ∀ idx, (∀ j, j < len → (env.pubResult (idx + j)).isSome) →
    failCount env idx len = len := by
  induction len with
  | zero => intro idx _; simp [failCount]
  | succ k ih =>
    intro idx h
    have h0 : (env.pubResult idx).isSome := by
      have := h 0 (Nat.succ_pos k)
      simpa using this
    have hr : ∀ j, j < k → (env.pubResult (idx + 1 + j)).isSome := by
      intro j hj
      have := h (j + 1) (Nat.succ_lt_succ hj)
      have harr : idx + (j + 1) = idx + 1 + j := by omega
      rwa [harr] at this
    simp only [failCount, h0, if_true, ih (idx + 1) hr]
    omega

theorem loopIter_abort (env : CopyEnv) (n : Nat) (flag0 : Bool) (idx : Nat)
    (m : Msg) (st : RunState)
    (hc : (flag0 || abortObserved env.cancelAt idx) = true) :
    loopIter env n flag0 idx m st = ⟨addLog st .info abortMsg, none, true⟩ := by
  unfold loopIter
  simp [hc]

theorem loopIter_no_abort (env : CopyEnv) (n : Nat) (idx : Nat)
    (m : Msg) (st : RunState)
    (hc : abortObserved env.cancelAt idx = false) :
    (loopIter env n false idx m st).broke = false ∧
    (loopIter env n false idx m st).pub = some (pubPair m) ∧
    (loopIter env n false idx m st).state.progress.copied =
      st.progress.copied + (if (env.pubResult idx).isSome then 0 else 1) ∧
    (loopIter env n false idx m st).state.progress.errors =
      st.progress.errors + (if (env.pubResult idx).isSome then 1 else 0) ∧
    errCnt (loopIter env n false idx m st).state.logs =
      errCnt st.logs + (if (env.pubResult idx).isSome then 1 else 0) := by
  unfold loopIter
  simp only [Bool.false_or, hc, Bool.false_eq_true, if_false]
  cases hp : env.pubResult idx with
  | none =>
    dsimp only
    split <;>
      simp [addLog, pubPair, errCnt, List.countP_append, List.countP_cons]
  | some cause =>
    simp [addLog, pubPair, errCnt, List.countP_append, List.countP_cons]

theorem runLoop_none (env : CopyEnv) (n : Nat) (msgs : List Msg)
    (hc : env.cancelAt = none) :
    ∀ (idx : Nat) (st : RunState),
    (runLoop env n false msgs idx st).cancelled = false ∧
    (runLoop env n false msgs idx st).pubs = msgs.map pubPair ∧
    (runLoop env n false msgs idx st).final.progress.copied =
      st.progress.copied + succCount env idx msgs.length ∧
    (runLoop env n false msgs idx st).final.progress.errors =
      st.progress.errors + failCount env idx msgs.length ∧
    errCnt (runLoop env n false msgs idx st).final.logs =
      errCnt st.logs + failCount env idx msgs.length ∧
    (runLoop env n false msgs idx st).final.error = st.error := by
  induction msgs with
  | nil =>
    intro idx st
    simp [runLoop, succCount, failCount]
  | cons m rest ih =>
    intro idx st
    have hob : abortObserved env.cancelAt idx = false := by
      simp [abortObserved, hc]
    obtain ⟨hb, hp, hcop, herr, hcnt⟩ := loopIter_no_abort env n idx m st hob
    have herror := loopIter_error env n false idx m st
    have ihr := ih (idx + 1) (loopIter env n false idx m st).state
    simp only [runLoop, hb, Bool.false_eq_true, if_false, List.map_cons,
      List.length_cons, hp, Option.toList_some, List.cons_append, List.nil_append]
    refine ⟨ihr.1, ?_, ?_, ?_, ?_, ?_⟩
    · rw [ihr.2.1]
    · rw [ihr.2.2.1, hcop]
      simp only [succCount]
      cases hq : (env.pubResult idx).isSome <;> simp [hq] <;> omega
    · rw [ihr.2.2.2.1, herr]
      simp only [failCount]
      cases hq : (env.pubResult idx).isSome <;> simp [hq] <;> omega
    · rw [ihr.2.2.2.2.1, hcnt]
      simp only [failCount]
      cases hq : (env.pubResult idx).isSome <;> simp [hq] <;> omega
    · rw [ihr.2.2.2.2.2, herror]

theorem runLoop_cancel (env : CopyEnv) (n : Nat) (msgs : List Msg) (k : Nat)
    (hc : env.cancelAt = some k) :
    ∀ (idx : Nat) (st : RunState), idx ≤ k →
    (runLoop env n false msgs idx st).pubs = (msgs.take (k - idx)).map pubPair ∧
    (k - idx < msgs.length →
      (runLoop env n false msgs idx st).cancelled = true ∧
      ∃ e ∈ (runLoop env n false msgs idx st).final.logs,
        e.type = LogType.info ∧ e.message = abortMsg) := by
  induction msgs with
  | nil =>
    intro idx st _
    simp [runLoop]
  | cons m rest ih =>
    intro idx st hk
    by_cases hke : k ≤ idx
    · have hob : (false || abortObserved env.cancelAt idx) = true := by
        simp [abortObserved, hc, hke]
      have heq := loopIter_abort env n false idx m st hob
      simp only [runLoop, heq, if_true]
      constructor
      · have : k - idx = 0 := by omega
        simp [this]
      · intro _
        refine ⟨by trivial, ⟨st.nextLogId, .info, abortMsg⟩, ?_, rfl, rfl⟩
        simp [addLog]
    · have hlt : idx < k := Nat.lt_of_not_le hke
      have hob : abortObserved env.cancelAt idx = false := by
        simp [abortObserved, hc]
        omega
      obtain ⟨hb, hp, _, _, _⟩ := loopIter_no_abort env n idx m st hob
      have ihr := ih (idx + 1) (loopIter env n false idx m st).state
        (Nat.succ_le_of_lt hlt)
      have hkix : k - idx = (k - (idx + 1)) + 1 := by omega
      simp only [runLoop, hb, Bool.false_eq_true, if_false, hp,
        Option.toList_some, List.cons_append, List.nil_append]
      constructor
      · rw [ihr.1, hkix, List.take_succ_cons, List.map_cons]
      · intro hlen
        simp only [List.length_cons] at hlen
        have : k - (idx + 1) < rest.length := by omega
        exact ihr.2 this

theorem runCopy_valid (cfg : CopyConfig) (env : CopyEnv) (st0 : RunState)
    (h : validCfg cfg) :
    runCopy cfg env st0 = runCopyBody cfg env st0 := by
  obtain ⟨h1, h2, h3⟩ := h
  unfold runCopy
  simp [h1, h2, h3]

theorem runCopy_fetchError (cfg : CopyConfig) (env : CopyEnv) (st0 : RunState)
    (e : String) (h : validCfg cfg) (he : env.fetch = .error e) :
    runCopy cfg env st0 =
      ⟨[fetchLogState cfg st0, errorFinish (fetchLogState cfg st0) e], [], false⟩ := by
  rw [runCopy_valid cfg env st0 h]
  unfold runCopyBody
  rw [he]

theorem runCopy_emptyFetch (cfg : CopyConfig) (env : CopyEnv) (st0 : RunState)
    (h : validCfg cfg) (he : env.fetch = .ok []) :
    runCopy cfg env st0 =
      ⟨[fetchLogState cfg st0, emptyFinish (fetchLogState cfg st0)], [], false⟩ := by
  rw [runCopy_valid cfg env st0 h]
  unfold runCopyBody
  rw [he]
  rfl

theorem runCopy_loopRun (cfg : CopyConfig) (env : CopyEnv) (st0 : RunState)
    (msgs : List Msg) (h : validCfg cfg) (he : env.fetch = .ok msgs)
    (hm : msgs ≠ []) :
    runCopy cfg env st0 =
      ⟨[fetchLogState cfg st0, preLoopState cfg st0 msgs.length] ++
          (loopOf cfg env st0 msgs).states ++
          [finishState (loopOf cfg env st0 msgs).final],
        (loopOf cfg env st0 msgs).pubs, (loopOf cfg env st0 msgs).cancelled⟩ := by
  rw [runCopy_valid cfg env st0 h]
  unfold runCopyBody
  rw [he]
  have : msgs.isEmpty = false := by
    cases msgs with
    | nil => exact absurd rfl hm
    | cons a l => rfl
  simp [this]

theorem finalState_fetchError (cfg : CopyConfig) (env : CopyEnv) (st0 : RunState)
    (e : String) (h : validCfg cfg) (he : env.fetch = .error e) :
    finalState cfg env st0 = errorFinish (fetchLogState cfg st0) e := by
  unfold finalState
  rw [runCopy_fetchError cfg env st0 e h he]
  rfl

theorem finalState_emptyFetch (cfg : CopyConfig) (env : CopyEnv) (st0 : RunState)
    (h : validCfg cfg) (he : env.fetch = .ok []) :
    finalState cfg env st0 = emptyFinish (fetchLogState cfg st0) := by
  unfold finalState
  rw [runCopy_emptyFetch cfg env st0 h he]
  rfl

theorem finalState_loopRun (cfg : CopyConfig) (env : CopyEnv) (st0 : RunState)
    (msgs : List Msg) (h : validCfg cfg) (he : env.fetch = .ok msgs)
    (hm : msgs ≠ []) :
    finalState cfg env st0 = finishState (loopOf cfg env st0 msgs).final := by
  unfold finalState
  rw [runCopy_loopRun cfg env st0 msgs h he hm]
  simp only [← List.append_assoc]
  exact List.getLastD_concat _ _ _

theorem fetchLogState_progress (cfg : CopyConfig) (st0 : RunState) :
    (fetchLogState cfg st0).progress = ⟨0, 0, 0⟩ := by
  simp [fetchLogState, addLog, resetState]

theorem fetchLogState_error (cfg : CopyConfig) (st0 : RunState) :
    (fetchLogState cfg st0).error = none := by
  simp [fetchLogState, addLog, resetState]

theorem preLoopState_progress (cfg : CopyConfig) (st0 : RunState) (n : Nat) :
    (preLoopState cfg st0 n).progress = ⟨n, 0, 0⟩ := by
  simp [preLoopState]

theorem preLoopState_error (cfg : CopyConfig) (st0 : RunState) (n : Nat) :
    (preLoopState cfg st0 n).error = none := by
  simp [preLoopState, addLog, fetchLogState, resetState]

theorem preLoopState_errCnt (cfg : CopyConfig) (st0 : RunState) (n : Nat) :
    errCnt (preLoopState cfg st0 n).logs = 0 := by
  simp [preLoopState, addLog, fetchLogState, resetState, errCnt]

theorem finishState_progress (st : RunState) :
    (finishState st).progress = st.progress := by
  simp [finishState, addLog]

theorem finishState_done (st : RunState) :
    (finishState st).done = true ∧ (finishState st).copying = false := by
  simp [finishState, addLog]

theorem finishState_error (st : RunState) :
    (finishState st).error = st.error := by
  simp [finishState, addLog]

theorem finishState_logs (st : RunState) :
    (finishState st).logs =
      st.logs ++ [⟨st.nextLogId, LogType.success,
        doneMsg st.progress.copied st.progress.errors⟩] ∧
    (finishState st).nextLogId = st.nextLogId + 1 := by
  simp [finishState, addLog]

theorem errorFinish_fields (st : RunState) (e : String) :
    (errorFinish st e).progress = st.progress ∧
    (errorFinish st e).error = some e ∧
    (errorFinish st e).done = st.done ∧
    (errorFinish st e).copying = false ∧
    (errorFinish st e).logs = st.logs ++ [⟨st.nextLogId, LogType.error, e⟩] := by
  simp [errorFinish, addLog]

theorem emptyFinish_fields (st : RunState) :
    (emptyFinish st).progress = st.progress ∧
    (emptyFinish st).done = true ∧
    (emptyFinish st).copying = false ∧
    (emptyFinish st).logs = st.logs ++ [⟨st.nextLogId, LogType.info, noMsgMsg⟩] := by
  simp [emptyFinish, addLog]

theorem loopOf_eq (cfg : CopyConfig) (env : CopyEnv) (st0 : RunState)
    (msgs : List Msg) :
    loopOf cfg env st0 msgs =
      runLoop env msgs.length false msgs 0 (preLoopState cfg st0 msgs.length) := by
  simp [loopOf, resetState]

/-- Claim C1: at every observed progress snapshot of a run,
`copied + errors ≤ total`; `copied` and `errors` are monotonically
non-decreasing along the run; and once the fetch has completed, `total`
equals the number of fetched messages at every later snapshot. -/
theorem c1_progress_invariants (cfg : CopyConfig) (env : CopyEnv)
    (st0 : RunState) (h : validCfg cfg) :
    (∀ t ∈ (runCopy cfg env st0).trace,
        t.progress.copied + t.progress.errors ≤ t.progress.total) ∧
    List.Chain' monoR (runCopy cfg env st0).trace ∧
    (∀ msgs, env.fetch = .ok msgs →
      ∀ t ∈ (runCopy cfg env st0).trace.drop 1,
        t.progress.total = msgs.length) := by
  cases hf : env.fetch with
  | error e =>
    rw [runCopy_fetchError cfg env st0 e h hf]
    refine ⟨?_, ?_, ?_⟩
    · intro t ht
      simp only [List.mem_cons, List.not_mem_nil, or_false] at ht
      rcases ht with rfl | rfl
      · simp [fetchLogState_progress]
      · simp [(errorFinish_fields _ e).1, fetchLogState_progress]
    · refine List.chain'_cons.2 ⟨?_, List.chain'_singleton _⟩
      constructor
      · rw [(errorFinish_fields _ e).1]
      · rw [(errorFinish_fields _ e).1]
    · intro msgs hmsgs
      exact absurd hmsgs (by simp)
  | ok msgs =>
    by_cases hm : msgs = []
    · subst hm
      rw [runCopy_emptyFetch cfg env st0 h hf]
      refine ⟨?_, ?_, ?_⟩
      · intro t ht
        simp only [List.mem_cons, List.not_mem_nil, or_false] at ht
        rcases ht with rfl | rfl
        · simp [fetchLogState_progress]
        · simp [(emptyFinish_fields _).1, fetchLogState_progress]
      · refine List.chain'_cons.2 ⟨?_, List.chain'_singleton _⟩
        constructor
        · rw [(emptyFinish_fields _).1]
        · rw [(emptyFinish_fields _).1]
      · intro msgs' hmsgs' t ht
        have : msgs' = [] := by
          cases hmsgs'
          rfl
        subst this
        simp only [List.drop_one, List.tail_cons, List.mem_cons,
          List.not_mem_nil, or_false] at ht
        subst ht
        simp [(emptyFinish_fields _).1, fetchLogState_progress]
    · rw [runCopy_loopRun cfg env st0 msgs h hf hm, loopOf_eq]
      have hpre := preLoopState_progress cfg st0 msgs.length
      have hsum0 : (preLoopState cfg st0 msgs.length).progress.copied +
          (preLoopState cfg st0 msgs.length).progress.errors + msgs.length ≤
          (preLoopState cfg st0 msgs.length).progress.total := by
        rw [hpre]
        simp
      have hS := runLoop_sum env msgs.length false msgs 0
        (preLoopState cfg st0 msgs.length) hsum0
      have hT := runLoop_total env msgs.length false msgs 0
        (preLoopState cfg st0 msgs.length)
      refine ⟨?_, ?_, ?_⟩
      · intro t ht
        simp only [List.cons_append, List.nil_append, List.mem_cons,
          List.mem_append, List.mem_singleton, List.not_mem_nil,
          or_false] at ht
        rcases ht with rfl | rfl | ht | rfl
        · simp [fetchLogState_progress]
        · rw [hpre]
          simp
        · exact hS.1 t ht
        · rw [finishState_progress]
          exact hS.2
      · refine List.chain'_cons.2 ⟨?_, ?_⟩
        · constructor
          · rw [fetchLogState_progress, hpre]
          · rw [fetchLogState_progress, hpre]
        · exact runLoop_chain env msgs.length false msgs 0
            (preLoopState cfg st0 msgs.length)
            (finishState (runLoop env msgs.length false msgs 0
              (preLoopState cfg st0 msgs.length)).final)
            ⟨le_of_eq (congrArg Progress.copied (finishState_progress _)).symm,
             le_of_eq (congrArg Progress.errors (finishState_progress _)).symm⟩
      · intro msgs' hmsgs' t ht
        have hmm : msgs' = msgs := by
          cases hmsgs'
          rfl
        subst hmm
        simp only [List.cons_append, List.nil_append, List.drop_one,
          List.tail_cons, List.mem_cons, List.mem_append,
          List.mem_singleton, List.not_mem_nil, or_false] at ht
        rcases ht with rfl | ht | rfl
        · rw [hpre]
        · rw [hT.1 t ht, hpre]
        · rw [finishState_progress, hT.2, hpre]

/-- Claim C1 witness: the invariants instantiated on the worked example. -/
theorem c1_progress_invariants_witness :
    validCfg cfgEx ∧
    ((∀ t ∈ (runCopy cfgEx envEx cleanState).trace,
        t.progress.copied + t.progress.errors ≤ t.progress.total) ∧
     List.Chain' monoR (runCopy cfgEx envEx cleanState).trace ∧
     (∀ msgs, envEx.fetch = .ok msgs →
       ∀ t ∈ (runCopy cfgEx envEx cleanState).trace.drop 1,
         t.progress.total = msgs.length)) :=
  ⟨by decide, c1_progress_invariants cfgEx envEx cleanState (by decide)⟩

/-- Claim C2: for every fetched batch, publish calls are issued one at a
time in fetch order carrying each message's subject and payload unchanged;
the issued sequence is a prefix of the fetched sequence, and the whole
sequence when no cancellation occurs. -/
theorem c2_publish_order (cfg : CopyConfig) (env : CopyEnv) (st0 : RunState)
    (msgs : List Msg) (h : validCfg cfg) (hf : env.fetch = .ok msgs) :
    (∃ k, (runCopy cfg env st0).pubs = (msgs.take k).map pubPair) ∧
    (env.cancelAt = none →
      (runCopy cfg env st0).pubs = msgs.map pubPair) := by
  by_cases hm : msgs = []
  · subst hm
    rw [runCopy_emptyFetch cfg env st0 h hf]
    exact ⟨⟨0, by simp⟩, fun _ => by simp⟩
  · rw [runCopy_loopRun cfg env st0 msgs h hf hm, loopOf_eq]
    constructor
    · cases hc : env.cancelAt with
      | none =>
        refine ⟨msgs.length, ?_⟩
        rw [(runLoop_none env msgs.length msgs hc 0
          (preLoopState cfg st0 msgs.length)).2.1, List.take_length]
      | some k =>
        refine ⟨k, ?_⟩
        have := (runLoop_cancel env msgs.length msgs k hc 0
          (preLoopState cfg st0 msgs.length) (Nat.zero_le k)).1
        rw [Nat.sub_zero] at this
        exact this
    · intro hc
      exact (runLoop_none env msgs.length msgs hc 0
        (preLoopState cfg st0 msgs.length)).2.1

/-- Claim C2 witness: on the worked example every fetched message is
published, in order, with subject and payload unchanged. -/
theorem c2_publish_order_witness :
    validCfg cfgEx ∧ envEx.fetch = .ok exMsgs ∧
    ((∃ k, (runCopy cfgEx envEx cleanState).pubs = (exMsgs.take k).map pubPair) ∧
     (envEx.cancelAt = none →
       (runCopy cfgEx envEx cleanState).pubs = exMsgs.map pubPair)) :=
  ⟨by decide, rfl, c2_publish_order cfgEx envEx cleanState exMsgs (by decide) rfl⟩

/-- Claim C3: with no cancellation, each publish failure counts one error
and appends one error log entry while the loop continues; the run always
ends done (never a run-level failure), with `errors` the number of failing
publishes and `copied` the number of succeeding ones; when every publish
fails, `errors = total` and `copied = 0`. -/
theorem c3_per_message_failure (cfg : CopyConfig) (env : CopyEnv)
    (st0 : RunState) (msgs : List Msg) (h : validCfg cfg)
    (hf : env.fetch = .ok msgs) (hm : msgs ≠ []) (hc : env.cancelAt = none) :
    (finalState cfg env st0).done = true ∧
    (finalState cfg env st0).error = none ∧
    (finalState cfg env st0).progress.errors = failCount env 0 msgs.length ∧
    (finalState cfg env st0).progress.copied = succCount env 0 msgs.length ∧
    errCnt (finalState cfg env st0).logs = failCount env 0 msgs.length ∧
    ((∀ j, j < msgs.length → (env.pubResult j).isSome) →
      (finalState cfg env st0).progress.errors =
        (finalState cfg env st0).progress.total ∧
      (finalState cfg env st0).progress.copied = 0) := by
  rw [finalState_loopRun cfg env st0 msgs h hf hm, loopOf_eq]
  have hN := runLoop_none env msgs.length msgs hc 0
    (preLoopState cfg st0 msgs.length)
  have hT := runLoop_total env msgs.length false msgs 0
    (preLoopState cfg st0 msgs.length)
  have hpre := preLoopState_progress cfg st0 msgs.length
  have hpc : (preLoopState cfg st0 msgs.length).progress.copied = 0 := by
    rw [hpre]
  have hpe : (preLoopState cfg st0 msgs.length).progress.errors = 0 := by
    rw [hpre]
  have hpt : (preLoopState cfg st0 msgs.length).progress.total = msgs.length := by
    rw [hpre]
  have herrs : (finishState (runLoop env msgs.length false msgs 0
      (preLoopState cfg st0 msgs.length)).final).progress.errors =
      failCount env 0 msgs.length := by
    rw [finishState_progress, hN.2.2.2.1, hpe, Nat.zero_add]
  have hcop : (finishState (runLoop env msgs.length false msgs 0
      (preLoopState cfg st0 msgs.length)).final).progress.copied =
      succCount env 0 msgs.length := by
    rw [finishState_progress, hN.2.2.1, hpc, Nat.zero_add]
  refine ⟨(finishState_done _).1, ?_, herrs, hcop, ?_, ?_⟩
  · rw [finishState_error, hN.2.2.2.2.2, preLoopState_error]
  · have hfin : errCnt (finishState (runLoop env msgs.length false msgs 0
        (preLoopState cfg st0 msgs.length)).final).logs =
        errCnt (runLoop env msgs.length false msgs 0
          (preLoopState cfg st0 msgs.length)).final.logs := by
      rw [(finishState_logs _).1]
      simp [errCnt, List.countP_append]
    rw [hfin, hN.2.2.2.2.1, preLoopState_errCnt, Nat.zero_add]
  · intro hall
    have hfc : failCount env 0 msgs.length = msgs.length :=
      failCount_all env msgs.length 0 (fun j hj => by
        have := hall j hj
        simpa using this)
    have hsf := succCount_add_failCount env msgs.length 0
    have htot : (finishState (runLoop env msgs.length false msgs 0
        (preLoopState cfg st0 msgs.length)).final).progress.total =
        msgs.length := by
      rw [finishState_progress, hT.2, hpt]
    constructor
    · rw [herrs, hfc, htot]
    · rw [hcop]
      omega

/-- Claim C3 witness: a run where every publish fails still ends done with
`errors = total = 3` and `copied = 0`. -/
theorem c3_per_message_failure_witness :
    validCfg cfgEx ∧ envAllFail.fetch = .ok exMsgs ∧ exMsgs ≠ [] ∧
    envAllFail.cancelAt = none ∧
    ((finalState cfgEx envAllFail cleanState).done = true ∧
     (finalState cfgEx envAllFail cleanState).error = none ∧
     (finalState cfgEx envAllFail cleanState).progress.errors =
       failCount envAllFail 0 exMsgs.length ∧
     (finalState cfgEx envAllFail cleanState).progress.copied =
       succCount envAllFail 0 exMsgs.length ∧
     errCnt (finalState cfgEx envAllFail cleanState).logs =
       failCount envAllFail 0 exMsgs.length ∧
     ((∀ j, j < exMsgs.length → (envAllFail.pubResult j).isSome) →
       (finalState cfgEx envAllFail cleanState).progress.errors =
         (finalState cfgEx envAllFail cleanState).progress.total ∧
       (finalState cfgEx envAllFail cleanState).progress.copied = 0)) :=
  ⟨by decide, rfl, by decide, rfl,
    c3_per_message_failure cfgEx envAllFail cleanState exMsgs
      (by decide) rfl (by decide) rfl⟩

/-- Claim C4: once the abort flag is observed at the top of a loop
iteration, an info entry noting cancellation is appended and the loop
stops — messages from that iteration on are never attempted; cancelling
before any message is processed leaves `copied = errors = 0`. -/
theorem c4_cancellation (cfg : CopyConfig) (env : CopyEnv) (st0 : RunState)
    (msgs : List Msg) (k : Nat) (h : validCfg cfg)
    (hf : env.fetch = .ok msgs) (hc : env.cancelAt = some k)
    (hk : k < msgs.length) :
    (runCopy cfg env st0).cancelled = true ∧
    (runCopy cfg env st0).pubs = (msgs.take k).map pubPair ∧
    (∃ e ∈ (finalState cfg env st0).logs,
      e.type = LogType.info ∧ e.message = abortMsg) ∧
    (k = 0 → (finalState cfg env st0).progress.copied = 0 ∧
      (finalState cfg env st0).progress.errors = 0) := by
  have hm : msgs ≠ [] := by
    intro hnil
    subst hnil
    simp at hk
  rw [runCopy_loopRun cfg env st0 msgs h hf hm,
    finalState_loopRun cfg env st0 msgs h hf hm, loopOf_eq]
  have hCL := runLoop_cancel env msgs.length msgs k hc 0
    (preLoopState cfg st0 msgs.length) (Nat.zero_le k)
  have hk0 : k - 0 < msgs.length := by omega
  refine ⟨(hCL.2 hk0).1, ?_, ?_, ?_⟩
  · have := hCL.1
    rw [Nat.sub_zero] at this
    exact this
  · obtain ⟨e, he, het, hem⟩ := (hCL.2 hk0).2
    refine ⟨e, ?_, het, hem⟩
    rw [(finishState_logs _).1]
    exact List.mem_append_left _ he
  · intro hk0'
    subst hk0'
    cases msgs with
    | nil => exact absurd rfl hm
    | cons m rest =>
      have hob : (false || abortObserved env.cancelAt 0) = true := by
        simp [abortObserved, hc]
      have heq := loopIter_abort env (m :: rest).length false 0 m
        (preLoopState cfg st0 (m :: rest).length) hob
      simp only [runLoop, heq, if_true, finishState_progress]
      constructor
      · simp [addLog, preLoopState_progress]
      · simp [addLog, preLoopState_progress]

/-- Claim C4 witness: the abort flag observed at the very first check
cancels the run before any publish, leaving `copied = errors = 0`. -/
theorem c4_cancellation_witness :
    validCfg cfgEx ∧ envCancel0.fetch = .ok exMsgs ∧
    envCancel0.cancelAt = some 0 ∧ 0 < exMsgs.length ∧
    ((runCopy cfgEx envCancel0 cleanState).cancelled = true ∧
     (runCopy cfgEx envCancel0 cleanState).pubs =
       (exMsgs.take 0).map pubPair ∧
     (∃ e ∈ (finalState cfgEx envCancel0 cleanState).logs,
       e.type = LogType.info ∧ e.message = abortMsg) ∧
     (0 = 0 → (finalState cfgEx envCancel0 cleanState).progress.copied = 0 ∧
       (finalState cfgEx envCancel0 cleanState).progress.errors = 0)) :=
  ⟨by decide, rfl, rfl, by decide,
    c4_cancellation cfgEx envCancel0 cleanState exMsgs 0
      (by decide) rfl rfl (by decide)⟩

theorem fetchLogState_logs (cfg : CopyConfig) (st0 : RunState) :
    (fetchLogState cfg st0).logs =
      [⟨st0.nextLogId, LogType.info,
        fetchingMsg (limitOf cfg.maxMessages) cfg.sourceStream cfg.subjectFilter⟩] ∧
    (fetchLogState cfg st0).nextLogId = st0.nextLogId + 1 ∧
    (fetchLogState cfg st0).done = false := by
  simp [fetchLogState, addLog, resetState]

/-- Claim C5 counterexample: a run whose fetch returns zero messages ends
with two log entries (the fetch announcement plus the no-messages notice),
not exactly one as claimed. -/
theorem c5_empty_fetch_cex :
    (finalState cfgDefault envNoMsgs cleanState).logs.length = 2 ∧
    ¬ (finalState cfgDefault envNoMsgs cleanState).logs.length = 1 := by
  decide

/-- Claim C5 (amended): a run whose fetch returns zero messages reaches the
done terminal state with `total = copied = errors = 0`, no publish issued,
and exactly two log entries: the initial fetch announcement and the
no-messages notice. -/
theorem c5_empty_fetch_amended (cfg : CopyConfig) (env : CopyEnv)
    (st0 : RunState) (h : validCfg cfg) (he : env.fetch = .ok []) :
    (finalState cfg env st0).done = true ∧
    (finalState cfg env st0).copying = false ∧
    (finalState cfg env st0).progress = ⟨0, 0, 0⟩ ∧
    (runCopy cfg env st0).pubs = [] ∧
    (finalState cfg env st0).logs.map LogEntry.message =
      [fetchingMsg (limitOf cfg.maxMessages) cfg.sourceStream cfg.subjectFilter,
        noMsgMsg] := by
  rw [finalState_emptyFetch cfg env st0 h he,
    runCopy_emptyFetch cfg env st0 h he]
  refine ⟨(emptyFinish_fields _).2.1, (emptyFinish_fields _).2.2.1, ?_, rfl, ?_⟩
  · rw [(emptyFinish_fields _).1, fetchLogState_progress]
  · rw [(emptyFinish_fields _).2.2.2, (fetchLogState_logs cfg st0).1]
    simp

/-- Claim C5 witness for the amended statement, on a concrete empty run. -/
theorem c5_empty_fetch_amended_witness :
    validCfg cfgDefault ∧ envNoMsgs.fetch = .ok [] ∧
    ((finalState cfgDefault envNoMsgs cleanState).done = true ∧
     (finalState cfgDefault envNoMsgs cleanState).copying = false ∧
     (finalState cfgDefault envNoMsgs cleanState).progress = ⟨0, 0, 0⟩ ∧
     (runCopy cfgDefault envNoMsgs cleanState).pubs = [] ∧
     (finalState cfgDefault envNoMsgs cleanState).logs.map LogEntry.message =
       [fetchingMsg (limitOf cfgDefault.maxMessages) cfgDefault.sourceStream
          cfgDefault.subjectFilter, noMsgMsg]) :=
  ⟨by decide, rfl,
    c5_empty_fetch_amended cfgDefault envNoMsgs cleanState (by decide) rfl⟩

/-- Claim C6: a run whose fetch call fails terminates immediately in an
error state carrying the underlying cause, with no publish issued, the
progress counters still zero, and the done flag unset; the log holds the
fetch announcement and the error entry. -/
theorem c6_fetch_failure (cfg : CopyConfig) (env : CopyEnv) (st0 : RunState)
    (e : String) (h : validCfg cfg) (he : env.fetch = .error e) :
    (finalState cfg env st0).error = some e ∧
    (finalState cfg env st0).done = false ∧
    (finalState cfg env st0).progress = ⟨0, 0, 0⟩ ∧
    (runCopy cfg env st0).pubs = [] ∧
    (finalState cfg env st0).logs.map LogEntry.message =
      [fetchingMsg (limitOf cfg.maxMessages) cfg.sourceStream cfg.subjectFilter,
        e] ∧
    (finalState cfg env st0).logs.map LogEntry.type =
      [LogType.info, LogType.error] := by
  rw [finalState_fetchError cfg env st0 e h he,
    runCopy_fetchError cfg env st0 e h he]
  refine ⟨(errorFinish_fields _ e).2.1, ?_, ?_, rfl, ?_, ?_⟩
  · rw [(errorFinish_fields _ e).2.2.1, (fetchLogState_logs cfg st0).2.2]
  · rw [(errorFinish_fields _ e).1, fetchLogState_progress]
  · rw [(errorFinish_fields _ e).2.2.2.2, (fetchLogState_logs cfg st0).1]
    simp
  · rw [(errorFinish_fields _ e).2.2.2.2, (fetchLogState_logs cfg st0).1]
    simp

/-- Claim C6 witness: a concrete failing fetch. -/
theorem c6_fetch_failure_witness :
    validCfg cfgDefault ∧ envFetchFail.fetch = .error "network down" ∧
    ((finalState cfgDefault envFetchFail cleanState).error =
       some "network down" ∧
     (finalState cfgDefault envFetchFail cleanState).done = false ∧
     (finalState cfgDefault envFetchFail cleanState).progress = ⟨0, 0, 0⟩ ∧
     (runCopy cfgDefault envFetchFail cleanState).pubs = [] ∧
     (finalState cfgDefault envFetchFail cleanState).logs.map
         LogEntry.message =
       [fetchingMsg (limitOf cfgDefault.maxMessages) cfgDefault.sourceStream
          cfgDefault.subjectFilter, "network down"] ∧
     (finalState cfgDefault envFetchFail cleanState).logs.map LogEntry.type =
       [LogType.info, LogType.error]) :=
  ⟨by decide, rfl,
    c6_fetch_failure cfgDefault envFetchFail cleanState "network down"
      (by decide) rfl⟩

/-- Claim C7 counterexample: a parseable negative `maxMessages` ("-5") is
not rejected — the run proceeds to fetch with limit -5 and completes,
refuting the claimed rejection of non-positive values. -/
theorem c7_validation_cex :
    limitOf "-5" = -5 ∧
    (finalState cfgNeg envNoMsgs cleanState).error = none ∧
    (finalState cfgNeg envNoMsgs cleanState).done = true ∧
    (finalState cfgNeg envNoMsgs cleanState).logs.map LogEntry.message =
      [fetchingMsg (-5) "A" "", noMsgMsg] := by
  decide

/-- Claim C7 (amended): validation rejects, before any I/O and with only an
error message set, a missing source or target and equal source and target;
an unparseable `maxMessages` falls back to the default 100, and so does a
parsed 0; parseable negative values are NOT rejected and are used as the
fetch limit. -/
theorem c7_validation_amended :
    (∀ (cfg : CopyConfig) (env : CopyEnv) (st0 : RunState),
      cfg.sourceStream = "" ∨ cfg.targetStream = "" →
      runCopy cfg env st0 =
        ⟨[{ st0 with error := some "Select both source and target streams" }],
          [], false⟩) ∧
    (∀ (cfg : CopyConfig) (env : CopyEnv) (st0 : RunState),
      cfg.sourceStream ≠ "" → cfg.targetStream ≠ "" →
      cfg.sourceStream = cfg.targetStream →
      runCopy cfg env st0 =
        ⟨[{ st0 with error := some "Source and target streams must be different" }],
          [], false⟩) ∧
    (∀ s, parseIntJS s = none → limitOf s = 100) ∧
    limitOf "0" = 100 := by
  refine ⟨?_, ?_, ?_, by decide⟩
  · intro cfg env st0 hor
    unfold runCopy
    rw [if_pos hor]
  · intro cfg env st0 h1 h2 h3
    unfold runCopy
    rw [if_neg, if_pos h3]
    intro hor
    rcases hor with hh | hh
    · exact h1 hh
    · exact h2 hh
  · intro s hs
    unfold limitOf
    rw [hs]

/-- Claim C7 witness: the rejection branches and the unparseable fallback
at concrete inputs. -/
theorem c7_validation_amended_witness :
    runCopy ⟨"", "B", "", "100"⟩ envNoMsgs cleanState =
      ⟨[{ cleanState with
            error := some "Select both source and target streams" }],
        [], false⟩ ∧
    runCopy ⟨"A", "A", "", "100"⟩ envNoMsgs cleanState =
      ⟨[{ cleanState with
            error := some "Source and target streams must be different" }],
        [], false⟩ ∧
    limitOf "abc" = 100 :=
  ⟨c7_validation_amended.1 ⟨"", "B", "", "100"⟩ envNoMsgs cleanState
      (Or.inl rfl),
   c7_validation_amended.2.1 ⟨"A", "A", "", "100"⟩ envNoMsgs cleanState
      (by decide) (by decide) rfl,
   c7_validation_amended.2.2.1 "abc" (by decide)⟩

/-- Claim C8 counterexample: in a 3-message run whose first publish fails,
the final message succeeds with cumulative `copied = 2`, yet no progress
entry is appended for it — the code logs on `copied == messages.length`,
not on the final message. -/
theorem c8_progress_log_cex :
    (finalState cfgEx envFail0 cleanState).logs.map LogEntry.message =
      [fetchingMsg 3 "A" "orders.>", foundMsg 3,
        copyFailMsg 10 "orders.a" "boom", doneMsg 2 1] ∧
    (finalState cfgEx envFail0 cleanState).logs.countP
      (fun e => decide (e.message = progressLogMsg 2 3)) = 0 := by
  decide

/-- Claim C8 (amended): on a success, a periodic progress entry is appended
exactly when the new cumulative success count is a multiple of 10 or equals
the batch length (the latter can only happen when no publish failed so
far); failures append exactly one error entry and no progress entry. -/
theorem c8_progress_log_amended (env : CopyEnv) (n idx : Nat) (m : Msg)
    (st : RunState) (hc : abortObserved env.cancelAt idx = false) :
    (env.pubResult idx = none →
      (loopIter env n false idx m st).state.logs =
        st.logs ++
          (if (st.progress.copied + 1) % 10 = 0 ∨ st.progress.copied + 1 = n
          then [⟨st.nextLogId, LogType.info,
                  progressLogMsg (st.progress.copied + 1) n⟩]
          else [])) ∧
    (∀ cause, env.pubResult idx = some cause →
      (loopIter env n false idx m st).state.logs =
        st.logs ++ [⟨st.nextLogId, LogType.error,
          copyFailMsg m.sequence m.subject cause⟩]) := by
  constructor
  · intro hp
    unfold loopIter
    simp only [Bool.false_or, hc, Bool.false_eq_true, if_false, hp]
    split <;> simp_all [addLog]
  · intro cause hp
    unfold loopIter
    simp only [Bool.false_or, hc, Bool.false_eq_true, if_false, hp]
    simp [addLog]

/-- Claim C8 witness: the amended per-iteration log policy at concrete
inputs (a success that stays silent and a failure that logs an error). -/
theorem c8_progress_log_amended_witness :
    abortObserved envEx.cancelAt 0 = false ∧
    ((envEx.pubResult 0 = none →
      (loopIter envEx 3 false 0 msgEx0 cleanState).state.logs =
        cleanState.logs ++
          (if (cleanState.progress.copied + 1) % 10 = 0 ∨
              cleanState.progress.copied + 1 = 3
          then [⟨cleanState.nextLogId, LogType.info,
                  progressLogMsg (cleanState.progress.copied + 1) 3⟩]
          else [])) ∧
    (∀ cause, envEx.pubResult 0 = some cause →
      (loopIter envEx 3 false 0 msgEx0 cleanState).state.logs =
        cleanState.logs ++ [⟨cleanState.nextLogId, LogType.error,
          copyFailMsg msgEx0.sequence msgEx0.subject cause⟩])) :=
  ⟨by decide, c8_progress_log_amended envEx 3 0 msgEx0 cleanState (by decide)⟩

/-- Claim C9 counterexample: in the worked example (3 messages, only
sequence 11 fails) the terminal summary entry reads
"Done! Copied 2 messages, 1 error." — not "Copied 2, 1 error", and it does
not report the total. -/
theorem c9_summary_cex :
    (finalState cfgEx envEx cleanState).logs.map LogEntry.message =
      [fetchingMsg 3 "A" "orders.>", foundMsg 3,
        copyFailMsg 11 "orders.b" "publish failed", doneMsg 2 1] ∧
    doneMsg 2 1 = "Done! Copied 2 messages, 1 error." ∧
    ¬ doneMsg 2 1 = "Copied 2, 1 error" ∧
    (finalState cfgEx envEx cleanState).progress = ⟨3, 2, 1⟩ ∧
    (finalState cfgEx envEx cleanState).done = true := by
  decide

/-- Claim C9 (amended): after the loop of a run over a non-empty batch ends
(exhausted or cancelled), exactly one terminal summary entry is appended —
it is the final log entry, of success kind, reporting the final `copied`
and `errors` (errors omitted from the text when zero; the total is not
included) — and the run is marked done. -/
theorem c9_summary_amended (cfg : CopyConfig) (env : CopyEnv)
    (st0 : RunState) (msgs : List Msg) (h : validCfg cfg)
    (hf : env.fetch = .ok msgs) (hm : msgs ≠ []) :
    (finalState cfg env st0).done = true ∧
    (finalState cfg env st0).copying = false ∧
    (finalState cfg env st0).logs.getLast? =
      some ⟨(finalState cfg env st0).nextLogId - 1, LogType.success,
        doneMsg (finalState cfg env st0).progress.copied
          (finalState cfg env st0).progress.errors⟩ := by
  rw [finalState_loopRun cfg env st0 msgs h hf hm]
  refine ⟨(finishState_done _).1, (finishState_done _).2, ?_⟩
  rw [(finishState_logs _).1, List.getLast?_concat, (finishState_logs _).2,
    finishState_progress]
  simp

/-- Claim C9 witness: the amended summary statement on the worked example. -/
theorem c9_summary_amended_witness :
    validCfg cfgEx ∧ envEx.fetch = .ok exMsgs ∧ exMsgs ≠ [] ∧
    ((finalState cfgEx envEx cleanState).done = true ∧
     (finalState cfgEx envEx cleanState).copying = false ∧
     (finalState cfgEx envEx cleanState).logs.getLast? =
       some ⟨(finalState cfgEx envEx cleanState).nextLogId - 1,
         LogType.success,
         doneMsg (finalState cfgEx envEx cleanState).progress.copied
           (finalState cfgEx envEx cleanState).progress.errors⟩) :=
  ⟨by decide, rfl, by decide,
    c9_summary_amended cfgEx envEx cleanState exMsgs (by decide) rfl
      (by decide)⟩

/-- Claim C10: a valid run first resets the abort flag, the log and the
progress counters before any I/O — its first observable state carries
exactly the fetch announcement over fresh state — so a cancellation raised
during or after a previous run neither stops the new run early nor leaks
stale progress: running from an aborted prior state is identical to
running from the same state without the stale flag, and without a new
cancellation the run is never cancelled. -/
theorem c10_fresh_run (cfg : CopyConfig) (env : CopyEnv) (st0 : RunState)
    (h : validCfg cfg) :
    runCopy cfg env (handleAbort st0) = runCopy cfg env st0 ∧
    (runCopy cfg env st0).trace.head? = some (fetchLogState cfg st0) ∧
    (fetchLogState cfg st0).logs.length = 1 ∧
    (fetchLogState cfg st0).progress = ⟨0, 0, 0⟩ ∧
    (fetchLogState cfg st0).abortFlag = false ∧
    (env.cancelAt = none → (runCopy cfg env st0).cancelled = false) := by
  refine ⟨?_, ?_, ?_, fetchLogState_progress cfg st0, ?_, ?_⟩
  · rw [runCopy_valid cfg env (handleAbort st0) h, runCopy_valid cfg env st0 h]
    rfl
  · cases hf : env.fetch with
    | error e =>
      rw [runCopy_fetchError cfg env st0 e h hf]
      rfl
    | ok msgs =>
      by_cases hm : msgs = []
      · subst hm
        rw [runCopy_emptyFetch cfg env st0 h hf]
        rfl
      · rw [runCopy_loopRun cfg env st0 msgs h hf hm]
        rfl
  · rw [(fetchLogState_logs cfg st0).1]
    rfl
  · simp [fetchLogState, addLog, resetState]
  · intro hc
    cases hf : env.fetch with
    | error e =>
      rw [runCopy_fetchError cfg env st0 e h hf]
    | ok msgs =>
      by_cases hm : msgs = []
      · subst hm
        rw [runCopy_emptyFetch cfg env st0 h hf]
      · rw [runCopy_loopRun cfg env st0 msgs h hf hm, loopOf_eq]
        show (runLoop env msgs.length false msgs 0
          (preLoopState cfg st0 msgs.length)).cancelled = false
        exact (runLoop_none env msgs.length msgs hc 0
          (preLoopState cfg st0 msgs.length)).1

/-- Claim C10 witness: a stale abort flag from a previous run does not
change a concrete new run, whose first snapshot is fresh. -/
theorem c10_fresh_run_witness :
    validCfg cfgEx ∧
    (runCopy cfgEx envEx (handleAbort cleanState) =
       runCopy cfgEx envEx cleanState ∧
     (runCopy cfgEx envEx cleanState).trace.head? =
       some (fetchLogState cfgEx cleanState) ∧
     (fetchLogState cfgEx cleanState).logs.length = 1 ∧
     (fetchLogState cfgEx cleanState).progress = ⟨0, 0, 0⟩ ∧
     (fetchLogState cfgEx cleanState).abortFlag = false ∧
     (envEx.cancelAt = none →
       (runCopy cfgEx envEx cleanState).cancelled = false)) :=
  ⟨by decide, c10_fresh_run cfgEx envEx cleanState (by decide)⟩

end StreamCopy
